import Mathlib

/-!
Shallow embedding of the `go-lifecycle` package (files `application.go`,
`errors.go`, `plugin.go`).

The Go program runs exactly two logical tasks per `Application`: the caller's
thread and the background shutdown-listener goroutine spawned in `init`.  The
listener parks on a single blocking receive from the one-slot `signal` channel;
`shutdown(err)` sends on that channel and then blocks on `done` until the
listener's teardown finishes, so from the caller's point of view the teardown
runs synchronously inside `shutdown`.  The embedding makes that explicit: the
application state carries a `goroutineAlive` flag (the listener is still parked
on its receive), teardown runs at the rendezvous point, and the traces of
plugin-method invocations, hook invocations and termination-action invocations
are recorded as lists.

Plugins are external collaborators; each is modelled by the outcome of its four
methods (`none` = Go `nil` error).  The default termination action installed by
`init` is `log.Fatal` on a non-nil error, which stops the process: it is
modelled by the `halted` flag, after which no further operation has an effect.
-/

namespace Lifecycle

/-- Errors are modelled as strings, mirroring the `fmt.Errorf` values of `errors.go`. -/
abbrev Err := String

/-- `ErrInitializeAfterStartup` from `errors.go`. -/
def errInitializeAfterStartup : Err := "cannot initialize application after startup"

/-- `ErrRunOrStart` from `errors.go`. -/
def errRunOrStart : Err := "cannot start and run an application in the same execution context"

/-- Go `State = int32`; the constants below follow the `iota` order of `application.go`. -/
abbrev State := Nat

def StateInvalid : State := 0
def StateInitial : State := 1
def StateRunning : State := 2
def StateStarted : State := 3
def StateShutdown : State := 4
def StateTerminated : State := 5

/-- The four lifecycle methods of the `Plugin` interface. -/
inductive Method where
  | Initialize
  | Run
  | Start
  | Shutdown
deriving DecidableEq, Repr

/-- A plugin-method invocation: which registered plugin (registration index) and which method. -/
structure Event where
  plugin : Nat
  method : Method
deriving DecidableEq, Repr

/-- A hook invocation `hook(phase, err)`. -/
abbrev HookEvt := String × Option Err

/-- A plugin is modelled by the result of each of its four interface methods
(`none` = the method returns a nil error). -/
structure Plugin where
  Initialize : Option Err := none
  Run : Option Err := none
  Start : Option Err := none
  Shutdown : Option Err := none
deriving DecidableEq, Repr

/-- The `Application` of `application.go`, after `app.on.Do(app.init)` ran.
`signalBuf` is the occupancy of the one-slot `signal` channel once the listener
goroutine is gone; `teardownCount` counts executions of the listener's reverse
teardown loop; `ctxCancelled` records `app.cancel()`; `startParked` records a
caller blocked on `<-app.done` inside `Start`; `halted` records a fatal process
exit by the default termination action; `blocked` records a sender stuck forever
on a full `signal` channel with no listener. -/
structure App where
  state : State
  plugins : List Plugin
  goroutineAlive : Bool
  doneClosed : Bool
  signalBuf : Nat
  teardownCount : Nat
  ctxCancelled : Bool
  startParked : Bool
  calls : List Event
  hooks : List HookEvt
  terms : List (Option Err)
  halted : Bool
  blocked : Bool
deriving DecidableEq, Repr

/-- A fresh application right after `init`: state `Initial`, no plugins, the
listener goroutine parked on the signal channel, `done` open. -/
def app0 : App :=
  { state := StateInitial, plugins := [], goroutineAlive := true, doneClosed := false
    signalBuf := 0, teardownCount := 0, ctxCancelled := false, startParked := false
    calls := [], hooks := [], terms := [], halted := false, blocked := false }

/-- Pair each plugin with its registration index, starting at `i`. -/
def withIdx (i : Nat) : List Plugin → List (Nat × Plugin)
  | [] => []
  | p :: rest => (i, p) :: withIdx (i + 1) rest

/-- The invocation events `⟨i, m⟩, ⟨i+1, m⟩, …` for `n` consecutive plugins. -/
def evtsFrom (m : Method) : Nat → Nat → List Event
  | _, 0 => []
  | i, n + 1 => ⟨i, m⟩ :: evtsFrom m (i + 1) n

/-- The `"shutdown"`-tagged hook reports produced by the teardown loop over the
given indexed plugins. -/
def shutdownHooks : List (Nat × Plugin) → List HookEvt
  | [] => []
  | (_, p) :: rest =>
    match p.Shutdown with
    | some e => ("shutdown", some e) :: shutdownHooks rest
    | none => shutdownHooks rest

/-- The body of the listener's reverse loop
`for i := len(app.plugins); i > 0; i-- { err := app.plugins[i-1].Shutdown(app); if err != nil { app.hook("shutdown", err) } }`,
given the (already reversed) indexed registry. -/
def shutdownLoop : List (Nat × Plugin) → App → App
  | [], app => app
  | (i, p) :: rest, app =>
    let app1 := { app with calls := app.calls ++ [⟨i, Method.Shutdown⟩] }
    let app2 :=
      match p.Shutdown with
      | some e => { app1 with hooks := app1.hooks ++ [("shutdown", some e)] }
      | none => app1
    shutdownLoop rest app2

/-- The listener goroutine body after `<-app.signal`: `signal.Stop`, store
`StateShutdown`, reverse teardown loop, `app.cancel()`, `close(app.done)`.
Closing `done` releases a caller parked in `Start`. -/
def teardown (app : App) : App :=
  let app1 := { app with goroutineAlive := false, state := StateShutdown
                         teardownCount := app.teardownCount + 1 }
  let app2 := shutdownLoop (withIdx 0 app1.plugins).reverse app1
  { app2 with ctxCancelled := true, doneClosed := true, startParked := false }

/-- The tail of `Application.shutdown` after `<-app.done` returns: store
`StateTerminated`, invoke `app.hook("terminated", err)`, invoke `app.term(err)`.
The default `term` installed by `init` is `log.Fatal(err)` when `err != nil`,
modelled as a process halt. -/
def epilogue (app : App) (err : Option Err) : App :=
  let app1 := { app with state := StateTerminated
                         hooks := app.hooks ++ [("terminated", err)]
                         terms := app.terms ++ [err] }
  match err with
  | some _ => { app1 with halted := true }
  | none => app1

/-- `Application.shutdown(err)`: send on the one-slot `signal` channel, wait on
`done`, then the epilogue.  While the listener is parked the send is consumed
and the listener's teardown runs before `done` closes; after the listener is
gone the send lands in the channel buffer (if empty) and `done` is already
closed; a further send with the buffer full blocks its sender forever. -/
def shutdownStep (app : App) (err : Option Err) : App :=
  if app.goroutineAlive then
    epilogue (teardown app) err
  else if app.signalBuf = 0 then
    epilogue { app with signalBuf := 1 } err
  else
    { app with blocked := true }

/-- The shared shape of the three forward loops of `Initialize`, `Run` and
`Start`: invoke `sel` on each plugin in registration order; on the first error
report `hook(label, err)` and call `shutdown(err)`, returning immediately; when
the whole batch succeeds run the phase-specific continuation `fin`. -/
def forwardLoop (sel : Plugin → Option Err) (mth : Method) (label : String)
    (fin : App → App) : Nat → List Plugin → App → App
  | _, [], app => fin app
  | i, p :: rest, app =>
    let app1 := { app with calls := app.calls ++ [⟨i, mth⟩] }
    match sel p with
    | some e =>
      shutdownStep { app1 with hooks := app1.hooks ++ [(label, some e)] } (some e)
    | none => forwardLoop sel mth label fin (i + 1) rest app1

/-- `Application.Initialize(plugins...)`: if `state > StateInitial` call
`shutdown(ErrInitializeAfterStartup)` (which, carrying a non-nil error, either
halts the process via the default `term` or leaves its sender blocked); then
append the batch to the registry and run its Initialize loop. -/
def doInitialize (app : App) (newPs : List Plugin) : App :=
  if app.halted || app.blocked then app
  else
    let app1 :=
      if StateInitial < app.state then shutdownStep app (some errInitializeAfterStartup)
      else app
    if app1.halted || app1.blocked then app1
    else
      let base := app1.plugins.length
      let app2 := { app1 with plugins := app1.plugins ++ newPs }
      forwardLoop (fun p => p.Initialize) Method.Initialize "initialization" id base newPs app2

/-- `Application.Run()`: compare-and-swap `Initial → Running` (on failure
`shutdown(ErrRunOrStart)`), then the Run loop; a fully successful loop ends in
`shutdown(nil)`. -/
def doRun (app : App) : App :=
  if app.halted || app.blocked then app
  else
    let cas := app.state = StateInitial
    let app1 := if cas then { app with state := StateRunning } else app
    let app2 := if cas then app1 else shutdownStep app1 (some errRunOrStart)
    if app2.halted || app2.blocked then app2
    else
      forwardLoop (fun p => p.Run) Method.Run "running" (fun a => shutdownStep a none)
        0 app2.plugins app2

/-- `Application.Start()`: compare-and-swap `Initial → Started` (on failure
`shutdown(ErrRunOrStart)`), then the Start loop; a fully successful loop blocks
the caller on `<-app.done` until `done` closes. -/
def doStart (app : App) : App :=
  if app.halted || app.blocked then app
  else
    let cas := app.state = StateInitial
    let app1 := if cas then { app with state := StateStarted } else app
    let app2 := if cas then app1 else shutdownStep app1 (some errRunOrStart)
    if app2.halted || app2.blocked then app2
    else
      forwardLoop (fun p => p.Start) Method.Start "startup"
        (fun a => if a.doneClosed then a else { a with startParked := true })
        0 app2.plugins app2

/-- Delivery of `SIGTERM`/`SIGINT`.  While the listener goroutine is parked the
signal is received and the teardown runs (releasing any caller parked in
`Start`); once the listener ran, `signal.Stop` has unsubscribed the channel and
the signal has no effect.  A halted process receives nothing. -/
def deliverSignal (app : App) : App :=
  if app.halted then app
  else if app.goroutineAlive then teardown app
  else app

/-- A public operation on a live application: the three phase entry points, an
OS termination signal, or an explicit internal shutdown trigger. -/
inductive Op where
  | initializeOp (ps : List Plugin)
  | runOp
  | startOp
  | signalOp
  | shutdownOp (err : Option Err)
deriving Repr

/-- Apply one public operation. -/
def applyOp (app : App) : Op → App
  | Op.initializeOp ps => doInitialize app ps
  | Op.runOp => doRun app
  | Op.startOp => doStart app
  | Op.signalOp => deliverSignal app
  | Op.shutdownOp err => if app.halted || app.blocked then app else shutdownStep app err

/-- Apply a sequence of public operations, oldest first. -/
def applyOps (app : App) (ops : List Op) : App :=
  ops.foldl applyOp app

/-- `PluginFuncs` from `plugin.go`: each field is an optional function
(`none` = the Go field is nil). -/
structure PluginFuncs where
  InitializeFunc : Option (App → Option Err) := none
  RunFunc : Option (App → Option Err) := none
  StartFunc : Option (App → Option Err) := none
  ShutdownFunc : Option (App → Option Err) := none

/-- `func (p PluginFuncs) Initialize(app *Application) error`. -/
def PluginFuncs.Initialize (p : PluginFuncs) (app : App) : Option Err :=
  match p.InitializeFunc with
  | none => none
  | some f => f app

/-- `func (p PluginFuncs) Run(app *Application) error`. -/
def PluginFuncs.Run (p : PluginFuncs) (app : App) : Option Err :=
  match p.RunFunc with
  | none => none
  | some f => f app

/-- `func (p PluginFuncs) Start(app *Application) error`. -/
def PluginFuncs.Start (p : PluginFuncs) (app : App) : Option Err :=
  match p.StartFunc with
  | none => none
  | some f => f app

/-- `func (p PluginFuncs) Shutdown(app *Application) error`. -/
def PluginFuncs.Shutdown (p : PluginFuncs) (app : App) : Option Err :=
  match p.ShutdownFunc with
  | none => none
  | some f => f app

/-- The teardown loop's plugin-method events for `n` registered plugins:
Shutdown on indices `n-1, …, 0`. -/
def teardownEvts (n : Nat) : List Event :=
  (evtsFrom Method.Shutdown 0 n).reverse

/-- The `"shutdown"` hook reports the teardown loop emits for the registry `ps`. -/
def teardownHooks (ps : List Plugin) : List HookEvt :=
  shutdownHooks (withIdx 0 ps).reverse

/-- A plugin all of whose methods succeed. -/
def pOk : Plugin := {}

/-- A plugin whose Shutdown method fails. -/
def pShutErr : Plugin := { Shutdown := some "shutdown failed" }

/-- A plugin whose Initialize method fails. -/
def pInitErr : Plugin := { Initialize := some "init boom" }

/-- A plugin whose Run method fails. -/
def pRunErr : Plugin := { Run := some "run boom" }

/-- A plugin whose Start method fails. -/
def pStartErr : Plugin := { Start := some "start boom" }

/-- The synchronization invariant of a reachable application state: while the
listener goroutine is parked the teardown has not run and no phase past
`Started` has been stored; `done` is closed exactly when the teardown ran; the
teardown never runs twice; the state never passes `Terminated`. -/
def Inv (a : App) : Prop :=
  (a.goroutineAlive = true → a.teardownCount = 0 ∧ a.state ≤ StateStarted)
  ∧ (a.doneClosed = true ↔ a.teardownCount = 1)
  ∧ a.teardownCount ≤ 1
  ∧ a.state ≤ StateTerminated

/-- One step of the machine never decreases the state and never reopens
`done`. -/
def StepOK (a b : App) : Prop :=
  a.state ≤ b.state ∧ (a.doneClosed = true → b.doneClosed = true)

end Lifecycle

namespace Lifecycle

/-! ## Trace characterizations of the teardown machinery -/

theorem withIdx_map_evt (m : Method) :
    ∀ (ps : List Plugin) (i : Nat),
      (withIdx i ps).map (fun x => Event.mk x.1 m) = evtsFrom m i ps.length := by
  intro ps
  induction ps with
  | nil => intro i; simp [withIdx, evtsFrom]
  | cons p rest ih => intro i; simp [withIdx, evtsFrom, ih]

theorem mem_withIdx :
    ∀ (ps : List Plugin) (i : Nat) (x : Nat × Plugin), x ∈ withIdx i ps → x.2 ∈ ps := by
  intro ps
  induction ps with
  | nil => intro i x hx; simp [withIdx] at hx
  | cons p rest ih =>
    intro i x hx
    simp only [withIdx, List.mem_cons] at hx
    rcases hx with h | h
    · subst h; simp
    · exact List.mem_cons_of_mem _ (ih (i + 1) x h)

theorem shutdownHooks_eq_nil :
    ∀ (items : List (Nat × Plugin)),
      (∀ x ∈ items, (x : Nat × Plugin).2.Shutdown = none) → shutdownHooks items = [] := by
  intro items
  induction items with
  | nil => intro _; simp [shutdownHooks]
  | cons x rest ih =>
    intro h
    obtain ⟨i, p⟩ := x
    have hx : p.Shutdown = none := h (i, p) (List.mem_cons_self _ _)
    simp only [shutdownHooks, hx]
    exact ih fun y hy => h y (List.mem_cons_of_mem _ hy)

theorem teardownHooks_eq_nil (ps : List Plugin) (h : ∀ p ∈ ps, p.Shutdown = none) :
    teardownHooks ps = [] := by
  refine shutdownHooks_eq_nil _ fun x hx => ?_
  exact h x.2 (mem_withIdx ps 0 x (List.mem_reverse.mp hx))

theorem shutdownLoop_spec :
    ∀ (items : List (Nat × Plugin)) (app : App),
      shutdownLoop items app =
        { app with calls := app.calls ++ items.map (fun x => Event.mk x.1 Method.Shutdown)
                   hooks := app.hooks ++ shutdownHooks items } := by
  intro items
  induction items with
  | nil => intro app; simp [shutdownLoop, shutdownHooks]
  | cons x rest ih =>
    intro app
    obtain ⟨i, p⟩ := x
    cases h : p.Shutdown with
    | some e => simp [shutdownLoop, shutdownHooks, h, ih, List.append_assoc]
    | none => simp [shutdownLoop, shutdownHooks, h, ih, List.append_assoc]

theorem teardown_spec (app : App) :
    teardown app =
      { app with goroutineAlive := false, state := StateShutdown
                 teardownCount := app.teardownCount + 1
                 calls := app.calls ++ teardownEvts app.plugins.length
                 hooks := app.hooks ++ teardownHooks app.plugins
                 ctxCancelled := true, doneClosed := true, startParked := false } := by
  simp [teardown, shutdownLoop_spec, teardownEvts, teardownHooks, List.map_reverse,
    withIdx_map_evt]

end Lifecycle

namespace Lifecycle

theorem epilogue_spec (app : App) (err : Option Err) :
    epilogue app err =
      { app with state := StateTerminated
                 hooks := app.hooks ++ [("terminated", err)]
                 terms := app.terms ++ [err]
                 halted := app.halted || err.isSome } := by
  cases err <;> simp [epilogue]

theorem shutdownStep_alive (app : App) (err : Option Err) (h : app.goroutineAlive = true) :
    shutdownStep app err =
      { app with goroutineAlive := false, state := StateTerminated
                 teardownCount := app.teardownCount + 1
                 calls := app.calls ++ teardownEvts app.plugins.length
                 hooks := app.hooks ++ teardownHooks app.plugins ++ [("terminated", err)]
                 terms := app.terms ++ [err]
                 halted := app.halted || err.isSome
                 ctxCancelled := true, doneClosed := true, startParked := false } := by
  simp [shutdownStep, h, teardown_spec, epilogue_spec, List.append_assoc]

theorem shutdownStep_dead (app : App) (err : Option Err) (hg : app.goroutineAlive = false)
    (hb : app.signalBuf = 0) :
    shutdownStep app err =
      { app with signalBuf := 1, state := StateTerminated
                 hooks := app.hooks ++ [("terminated", err)]
                 terms := app.terms ++ [err]
                 halted := app.halted || err.isSome } := by
  simp [shutdownStep, hg, hb, epilogue_spec]

theorem forwardLoop_clean (sel : Plugin → Option Err) (mth : Method) (label : String)
    (fin : App → App) :
    ∀ (ps : List Plugin) (i : Nat) (app : App), (∀ p ∈ ps, sel p = none) →
      forwardLoop sel mth label fin i ps app =
        fin { app with calls := app.calls ++ evtsFrom mth i ps.length } := by
  intro ps
  induction ps with
  | nil => intro i app _; simp [forwardLoop, evtsFrom]
  | cons p rest ih =>
    intro i app h
    have hp : sel p = none := h p (List.mem_cons_self _ _)
    have hrest : ∀ q ∈ rest, sel q = none := fun q hq => h q (List.mem_cons_of_mem _ hq)
    simp only [forwardLoop, hp]
    rw [ih (i + 1) _ hrest]
    simp [evtsFrom, List.append_assoc]

theorem forwardLoop_firstErr (sel : Plugin → Option Err) (mth : Method) (label : String)
    (fin : App → App) :
    ∀ (ps : List Plugin) (p : Plugin) (e : Err) (qs : List Plugin) (i : Nat) (app : App),
      (∀ q ∈ ps, sel q = none) → sel p = some e →
      forwardLoop sel mth label fin i (ps ++ p :: qs) app =
        shutdownStep
          { app with calls := app.calls ++ evtsFrom mth i (ps.length + 1)
                     hooks := app.hooks ++ [(label, some e)] } (some e) := by
  intro ps
  induction ps with
  | nil =>
    intro p e qs i app _ hp
    simp [forwardLoop, hp, evtsFrom]
  | cons q rest ih =>
    intro p e qs i app h hp
    have hq : sel q = none := h q (List.mem_cons_self _ _)
    have hrest : ∀ r ∈ rest, sel r = none := fun r hr => h r (List.mem_cons_of_mem _ hr)
    simp only [List.cons_append, forwardLoop, hq, List.append_eq]
    rw [ih p e qs (i + 1) _ hrest hp]
    simp [evtsFrom, List.append_assoc]

end Lifecycle

namespace Lifecycle

theorem shutdownStep_some_stops (app : App) (e : Err) :
    (shutdownStep app (some e)).halted = true ∨ (shutdownStep app (some e)).blocked = true := by
  by_cases hg : app.goroutineAlive = true
  · left; simp [shutdownStep_alive app (some e) hg]
  · have hg' : app.goroutineAlive = false := by simpa using hg
    by_cases hb : app.signalBuf = 0
    · left; simp [shutdownStep_dead app (some e) hg' hb]
    · right; simp [shutdownStep, hg', hb]

theorem doInitialize_initial (app : App) (ps : List Plugin) (hh : app.halted = false)
    (hb : app.blocked = false) (hs : app.state = StateInitial) :
    doInitialize app ps =
      forwardLoop (fun p => p.Initialize) Method.Initialize "initialization" id
        app.plugins.length ps { app with plugins := app.plugins ++ ps } := by
  simp [doInitialize, hh, hb, hs, StateInitial]

theorem doInitialize_guardFail (app : App) (ps : List Plugin) (hh : app.halted = false)
    (hb : app.blocked = false) (hs : StateInitial < app.state) :
    doInitialize app ps = shutdownStep app (some errInitializeAfterStartup) := by
  have hstop := shutdownStep_some_stops app errInitializeAfterStartup
  rcases hstop with hstop | hstop <;>
    simp [doInitialize, hh, hb, hs, hstop]

theorem doRun_initial (app : App) (hh : app.halted = false) (hb : app.blocked = false)
    (hs : app.state = StateInitial) :
    doRun app =
      forwardLoop (fun p => p.Run) Method.Run "running" (fun a => shutdownStep a none) 0
        app.plugins { app with state := StateRunning } := by
  simp [doRun, hh, hb, hs]

theorem doRun_guardFail (app : App) (hh : app.halted = false) (hb : app.blocked = false)
    (hs : app.state ≠ StateInitial) :
    doRun app = shutdownStep app (some errRunOrStart) := by
  have hstop := shutdownStep_some_stops app errRunOrStart
  rcases hstop with hstop | hstop <;>
    simp [doRun, hh, hb, hs, hstop]

theorem doStart_initial (app : App) (hh : app.halted = false) (hb : app.blocked = false)
    (hs : app.state = StateInitial) :
    doStart app =
      forwardLoop (fun p => p.Start) Method.Start "startup"
        (fun a => if a.doneClosed then a else { a with startParked := true }) 0
        app.plugins { app with state := StateStarted } := by
  simp [doStart, hh, hb, hs]

theorem doStart_guardFail (app : App) (hh : app.halted = false) (hb : app.blocked = false)
    (hs : app.state ≠ StateInitial) :
    doStart app = shutdownStep app (some errRunOrStart) := by
  have hstop := shutdownStep_some_stops app errRunOrStart
  rcases hstop with hstop | hstop <;>
    simp [doStart, hh, hb, hs, hstop]

end Lifecycle

namespace Lifecycle

/-- C3: the teardown loop invokes Shutdown on each registered plugin in the exact
reverse of registration order — for a registry of length `n` the events are
`Shutdown n-1, …, Shutdown 0`, one per registered plugin — and it does so for
every registered plugin, with no condition on whether or how the forward phases
of those plugins executed (the application `app` is arbitrary). -/
theorem claim_C3_reverse_shutdown_order (app : App) :
    (teardown app).calls =
      app.calls ++ (evtsFrom Method.Shutdown 0 app.plugins.length).reverse := by
  simp [teardown_spec, teardownEvts]

end Lifecycle

namespace Lifecycle

theorem doInitialize_app0_clean (ps : List Plugin) (hI : ∀ p ∈ ps, p.Initialize = none) :
    doInitialize app0 ps =
      { app0 with plugins := ps, calls := evtsFrom Method.Initialize 0 ps.length } := by
  rw [doInitialize_initial app0 ps rfl rfl rfl]
  rw [forwardLoop_clean _ _ _ _ ps _ _ hI]
  simp [app0]

/-- C1: for a plugin sequence with no errors, Initialize followed by Run executes
each plugin's Initialize in registration order, then each plugin's Run in
registration order, then each plugin's Shutdown in reverse registration order,
each exactly once; the final state is `Terminated`, the hook is invoked exactly
once, tagged `"terminated"` with a nil error, and the termination action
receives a nil error (no fatal exit). -/
theorem claim_C1_clean_run (ps : List Plugin)
    (hI : ∀ p ∈ ps, p.Initialize = none) (hR : ∀ p ∈ ps, p.Run = none)
    (hS : ∀ p ∈ ps, p.Shutdown = none) :
    (doRun (doInitialize app0 ps)).calls =
        evtsFrom Method.Initialize 0 ps.length ++ evtsFrom Method.Run 0 ps.length
          ++ (evtsFrom Method.Shutdown 0 ps.length).reverse
      ∧ (doRun (doInitialize app0 ps)).state = StateTerminated
      ∧ (doRun (doInitialize app0 ps)).hooks = [("terminated", none)]
      ∧ (doRun (doInitialize app0 ps)).terms = [none]
      ∧ (doRun (doInitialize app0 ps)).halted = false := by
  rw [doInitialize_app0_clean ps hI]
  rw [doRun_initial _ rfl rfl rfl]
  rw [forwardLoop_clean _ _ _ _ _ _ _ hR]
  rw [shutdownStep_alive _ _ rfl]
  refine ⟨?_, ?_, ?_, ?_, ?_⟩ <;>
    simp [app0, teardownEvts, teardownHooks_eq_nil ps hS, List.append_assoc]

/-- Witness for C1 at the concrete two-plugin sequence `[pOk, pOk]`. -/
theorem claim_C1_clean_run_witness :
    (doRun (doInitialize app0 [pOk, pOk])).calls =
        evtsFrom Method.Initialize 0 [pOk, pOk].length
          ++ evtsFrom Method.Run 0 [pOk, pOk].length
          ++ (evtsFrom Method.Shutdown 0 [pOk, pOk].length).reverse
      ∧ (doRun (doInitialize app0 [pOk, pOk])).state = StateTerminated
      ∧ (doRun (doInitialize app0 [pOk, pOk])).hooks = [("terminated", none)]
      ∧ (doRun (doInitialize app0 [pOk, pOk])).terms = [none]
      ∧ (doRun (doInitialize app0 [pOk, pOk])).halted = false :=
  claim_C1_clean_run [pOk, pOk] (by decide) (by decide) (by decide)

end Lifecycle
namespace Lifecycle

/-- C2: for every plugin sequence, if some plugin's forward-phase method
(Initialize, Run or Start) returns the first error of that loop, then the hook
fires with that error under the failing phase's label ("initialization",
"running" or "startup"), plugins after the failing one in that forward loop do
not have that phase method executed (the forward events stop at the failing
index), every plugin registered at that point — including ones whose own
forward method never executed — receives exactly one Shutdown call (the
teardown events cover the whole registry, in reverse), and the termination
action receives the originating error. -/
theorem claim_C2_forward_error :
    (∀ (ps : List Plugin) (p : Plugin) (e : Err) (qs : List Plugin),
      (∀ q ∈ ps, q.Initialize = none) → p.Initialize = some e →
        (doInitialize app0 (ps ++ p :: qs)).plugins = ps ++ p :: qs
        ∧ (doInitialize app0 (ps ++ p :: qs)).calls =
            evtsFrom Method.Initialize 0 (ps.length + 1)
              ++ (evtsFrom Method.Shutdown 0 (ps ++ p :: qs).length).reverse
        ∧ (doInitialize app0 (ps ++ p :: qs)).hooks =
            ("initialization", some e)
              :: (teardownHooks (ps ++ p :: qs) ++ [("terminated", some e)])
        ∧ (doInitialize app0 (ps ++ p :: qs)).terms = [some e]
        ∧ (doInitialize app0 (ps ++ p :: qs)).halted = true)
    ∧ (∀ (ps : List Plugin) (p : Plugin) (e : Err) (qs : List Plugin),
      (∀ q ∈ ps ++ p :: qs, q.Initialize = none) →
      (∀ q ∈ ps, q.Run = none) → p.Run = some e →
        (doRun (doInitialize app0 (ps ++ p :: qs))).calls =
            evtsFrom Method.Initialize 0 (ps ++ p :: qs).length
              ++ evtsFrom Method.Run 0 (ps.length + 1)
              ++ (evtsFrom Method.Shutdown 0 (ps ++ p :: qs).length).reverse
        ∧ (doRun (doInitialize app0 (ps ++ p :: qs))).hooks =
            ("running", some e)
              :: (teardownHooks (ps ++ p :: qs) ++ [("terminated", some e)])
        ∧ (doRun (doInitialize app0 (ps ++ p :: qs))).terms = [some e]
        ∧ (doRun (doInitialize app0 (ps ++ p :: qs))).halted = true)
    ∧ (∀ (ps : List Plugin) (p : Plugin) (e : Err) (qs : List Plugin),
      (∀ q ∈ ps ++ p :: qs, q.Initialize = none) →
      (∀ q ∈ ps, q.Start = none) → p.Start = some e →
        (doStart (doInitialize app0 (ps ++ p :: qs))).calls =
            evtsFrom Method.Initialize 0 (ps ++ p :: qs).length
              ++ evtsFrom Method.Start 0 (ps.length + 1)
              ++ (evtsFrom Method.Shutdown 0 (ps ++ p :: qs).length).reverse
        ∧ (doStart (doInitialize app0 (ps ++ p :: qs))).hooks =
            ("startup", some e)
              :: (teardownHooks (ps ++ p :: qs) ++ [("terminated", some e)])
        ∧ (doStart (doInitialize app0 (ps ++ p :: qs))).terms = [some e]
        ∧ (doStart (doInitialize app0 (ps ++ p :: qs))).halted = true) := by
  refine ⟨?_, ?_, ?_⟩
  · intro ps p e qs hps hp
    rw [doInitialize_initial app0 _ rfl rfl rfl]
    rw [forwardLoop_firstErr _ _ _ _ ps p e qs _ _ hps hp]
    rw [shutdownStep_alive _ _ rfl]
    refine ⟨?_, ?_, ?_, ?_, ?_⟩ <;>
      simp [app0, teardownEvts, List.append_assoc]
  · intro ps p e qs hI hps hp
    rw [doInitialize_app0_clean _ hI]
    rw [doRun_initial _ rfl rfl rfl]
    rw [forwardLoop_firstErr _ _ _ _ ps p e qs _ _ hps hp]
    rw [shutdownStep_alive _ _ rfl]
    refine ⟨?_, ?_, ?_, ?_⟩ <;>
      simp [app0, teardownEvts, List.append_assoc]
  · intro ps p e qs hI hps hp
    rw [doInitialize_app0_clean _ hI]
    rw [doStart_initial _ rfl rfl rfl]
    rw [forwardLoop_firstErr _ _ _ _ ps p e qs _ _ hps hp]
    rw [shutdownStep_alive _ _ rfl]
    refine ⟨?_, ?_, ?_, ?_⟩ <;>
      simp [app0, teardownEvts, List.append_assoc]


/-- Witness for C2: each of the three phases at a concrete three-plugin registry
whose middle plugin fails that phase. -/
theorem claim_C2_forward_error_witness :
    (doInitialize app0 ([pOk] ++ pInitErr :: [pShutErr])).terms = [some "init boom"]
    ∧ (doRun (doInitialize app0 ([pOk] ++ pRunErr :: [pShutErr]))).terms = [some "run boom"]
    ∧ (doStart (doInitialize app0 ([pOk] ++ pStartErr :: [pShutErr]))).terms =
        [some "start boom"] :=
  ⟨(claim_C2_forward_error.1 [pOk] pInitErr "init boom" [pShutErr]
      (by decide) (by decide)).2.2.2.1,
   (claim_C2_forward_error.2.1 [pOk] pRunErr "run boom" [pShutErr]
      (by decide) (by decide) (by decide)).2.2.1,
   (claim_C2_forward_error.2.2 [pOk] pStartErr "start boom" [pShutErr]
      (by decide) (by decide) (by decide)).2.2.1⟩

end Lifecycle
namespace Lifecycle

theorem doRun_app0_clean_spec (ps : List Plugin)
    (hI : ∀ p ∈ ps, p.Initialize = none) (hR : ∀ p ∈ ps, p.Run = none) :
    doRun (doInitialize app0 ps) =
      { app0 with plugins := ps, state := StateTerminated, goroutineAlive := false
                  doneClosed := true, teardownCount := 1, ctxCancelled := true
                  calls := evtsFrom Method.Initialize 0 ps.length
                    ++ evtsFrom Method.Run 0 ps.length ++ teardownEvts ps.length
                  hooks := teardownHooks ps ++ [("terminated", none)]
                  terms := [none] } := by
  rw [doInitialize_app0_clean ps hI]
  rw [doRun_initial _ rfl rfl rfl]
  rw [forwardLoop_clean _ _ _ _ _ _ _ hR]
  rw [shutdownStep_alive _ _ rfl]
  simp [app0, List.append_assoc]

theorem doStart_app0_clean_spec (ps : List Plugin)
    (hI : ∀ p ∈ ps, p.Initialize = none) (hS : ∀ p ∈ ps, p.Start = none) :
    doStart (doInitialize app0 ps) =
      { app0 with plugins := ps, state := StateStarted, startParked := true
                  calls := evtsFrom Method.Initialize 0 ps.length
                    ++ evtsFrom Method.Start 0 ps.length } := by
  rw [doInitialize_app0_clean ps hI]
  rw [doStart_initial _ rfl rfl rfl]
  rw [forwardLoop_clean _ _ _ _ _ _ _ hS]
  simp [app0]

/-- C4: exactly one of Run/Start may execute.  After a completed Run, a call to
Start fails the compare-and-swap guard and triggers shutdown carrying
`ErrRunOrStart` (reported by the "terminated" hook and given to the termination
action, which exits fatally), and no plugin's Start method is executed; after
Start has been invoked (its forward loop done, the caller parked on `done`), a
call to Run likewise fails the guard, triggers the shutdown sequence carrying
`ErrRunOrStart`, and no plugin's Run method is executed — the only new plugin
events are the teardown's Shutdown calls. -/
theorem claim_C4_run_start_exclusive :
    (∀ ps : List Plugin, (∀ p ∈ ps, p.Initialize = none) → (∀ p ∈ ps, p.Run = none) →
        (doStart (doRun (doInitialize app0 ps))).calls = (doRun (doInitialize app0 ps)).calls
        ∧ (doStart (doRun (doInitialize app0 ps))).terms =
            (doRun (doInitialize app0 ps)).terms ++ [some errRunOrStart]
        ∧ (doStart (doRun (doInitialize app0 ps))).hooks =
            (doRun (doInitialize app0 ps)).hooks ++ [("terminated", some errRunOrStart)]
        ∧ (doStart (doRun (doInitialize app0 ps))).halted = true)
    ∧ (∀ ps : List Plugin, (∀ p ∈ ps, p.Initialize = none) → (∀ p ∈ ps, p.Start = none) →
        (doRun (doStart (doInitialize app0 ps))).calls =
            (doStart (doInitialize app0 ps)).calls
              ++ (evtsFrom Method.Shutdown 0 ps.length).reverse
        ∧ (doRun (doStart (doInitialize app0 ps))).terms = [some errRunOrStart]
        ∧ (doRun (doStart (doInitialize app0 ps))).hooks =
            (doStart (doInitialize app0 ps)).hooks
              ++ (teardownHooks ps ++ [("terminated", some errRunOrStart)])
        ∧ (doRun (doStart (doInitialize app0 ps))).halted = true) := by
  constructor
  · intro ps hI hR
    rw [doRun_app0_clean_spec ps hI hR]
    rw [doStart_guardFail _ rfl rfl (by simp [app0, StateTerminated, StateInitial])]
    rw [shutdownStep_dead _ _ rfl rfl]
    refine ⟨?_, ?_, ?_, ?_⟩ <;> simp [app0]
  · intro ps hI hS
    rw [doStart_app0_clean_spec ps hI hS]
    rw [doRun_guardFail _ rfl rfl (by simp [app0, StateStarted, StateInitial])]
    rw [shutdownStep_alive _ _ rfl]
    refine ⟨?_, ?_, ?_, ?_⟩ <;> simp [app0, teardownEvts, List.append_assoc]


/-- Witness for C4 at the concrete one-plugin registry `[pOk]`, both orders. -/
theorem claim_C4_run_start_exclusive_witness :
    (doStart (doRun (doInitialize app0 [pOk]))).terms =
        (doRun (doInitialize app0 [pOk])).terms ++ [some errRunOrStart]
    ∧ (doRun (doStart (doInitialize app0 [pOk]))).terms = [some errRunOrStart] :=
  ⟨(claim_C4_run_start_exclusive.1 [pOk] (by decide) (by decide)).2.1,
   (claim_C4_run_start_exclusive.2 [pOk] (by decide) (by decide)).2.1⟩

end Lifecycle
namespace Lifecycle

/-- C5: calling Initialize once the state has moved past `Initial` triggers the
shutdown sequence carrying `ErrInitializeAfterStartup` (reported by the
"terminated" hook and handed to the termination action, whose default fatally
exits), the batch passed to the call is not appended to the registry, and no
Initialize method of the batch is executed — the only new plugin events are the
teardown's Shutdown calls (none at all if the teardown already ran). -/
theorem claim_C5_initialize_after_startup (app : App) (ps : List Plugin)
    (hh : app.halted = false) (hb : app.blocked = false) (hbuf : app.signalBuf = 0)
    (hs : StateInitial < app.state) :
    (doInitialize app ps).plugins = app.plugins
    ∧ (doInitialize app ps).terms = app.terms ++ [some errInitializeAfterStartup]
    ∧ (doInitialize app ps).hooks =
        app.hooks ++ ((if app.goroutineAlive then teardownHooks app.plugins else [])
          ++ [("terminated", some errInitializeAfterStartup)])
    ∧ (doInitialize app ps).calls =
        app.calls ++ (if app.goroutineAlive then teardownEvts app.plugins.length else [])
    ∧ (doInitialize app ps).halted = true := by
  rw [doInitialize_guardFail app ps hh hb hs]
  by_cases hg : app.goroutineAlive = true
  · rw [shutdownStep_alive _ _ hg]
    refine ⟨?_, ?_, ?_, ?_, ?_⟩ <;> simp [hg, List.append_assoc]
  · have hg' : app.goroutineAlive = false := by simpa using hg
    rw [shutdownStep_dead _ _ hg' hbuf]
    refine ⟨?_, ?_, ?_, ?_, ?_⟩ <;> simp [hg']

/-- Witness for C5: Initialize invoked while a Start-phase application is
running (state `Started`), with a fresh batch. -/
theorem claim_C5_initialize_after_startup_witness :
    (doInitialize (doStart (doInitialize app0 [pOk])) [pShutErr]).plugins =
        (doStart (doInitialize app0 [pOk])).plugins
    ∧ (doInitialize (doStart (doInitialize app0 [pOk])) [pShutErr]).terms =
        (doStart (doInitialize app0 [pOk])).terms ++ [some errInitializeAfterStartup] :=
  ⟨(claim_C5_initialize_after_startup (doStart (doInitialize app0 [pOk])) [pShutErr]
      (by decide) (by decide) (by decide) (by decide)).1,
   (claim_C5_initialize_after_startup (doStart (doInitialize app0 [pOk])) [pShutErr]
      (by decide) (by decide) (by decide) (by decide)).2.1⟩

end Lifecycle
namespace Lifecycle

/-- C6: during teardown every registered plugin's Shutdown is attempted (one
Shutdown event per registered plugin, in reverse order) with no condition on
which Shutdown methods fail; each failing Shutdown is reported individually by
a hook invocation tagged "shutdown" (`teardownHooks`), and the terminal error
is unchanged by those failures: the "terminated" hook invocation and the
termination action carry exactly the error `err` that initiated the shutdown
sequence (nil for a clean run). -/
theorem claim_C6_shutdown_errors_best_effort (app : App) (err : Option Err)
    (hg : app.goroutineAlive = true) :
    (shutdownStep app err).calls =
        app.calls ++ (evtsFrom Method.Shutdown 0 app.plugins.length).reverse
    ∧ (shutdownStep app err).hooks =
        app.hooks ++ (teardownHooks app.plugins ++ [("terminated", err)])
    ∧ (shutdownStep app err).terms = app.terms ++ [err] := by
  rw [shutdownStep_alive _ _ hg]
  refine ⟨?_, ?_, ?_⟩ <;> simp [teardownEvts, List.append_assoc]

/-- Witness for C6: a clean run over a registry whose second plugin fails its
Shutdown; the shutdown error is reported by the hook yet the terminal error
stays nil. -/
theorem claim_C6_shutdown_errors_best_effort_witness :
    (shutdownStep (doInitialize app0 [pOk, pShutErr]) none).hooks =
        (doInitialize app0 [pOk, pShutErr]).hooks
          ++ (teardownHooks (doInitialize app0 [pOk, pShutErr]).plugins
            ++ [("terminated", none)])
    ∧ (shutdownStep (doInitialize app0 [pOk, pShutErr]) none).terms =
        (doInitialize app0 [pOk, pShutErr]).terms ++ [none] :=
  ⟨(claim_C6_shutdown_errors_best_effort (doInitialize app0 [pOk, pShutErr]) none
      (by decide)).2.1,
   (claim_C6_shutdown_errors_best_effort (doInitialize app0 [pOk, pShutErr]) none
      (by decide)).2.2⟩

/-- C7 counterexample: a termination signal delivered while the caller is
parked in Start does NOT produce the "terminated" hook invocation the claim
asserts — on the signal path nobody calls `Application.shutdown`, so the hook
trace contains no `("terminated", nil)` entry, the state stays `Shutdown`
rather than `Terminated`, and the termination action never runs. -/
theorem claim_C7_counterexample :
    (("terminated", (none : Option Err)) ∉
        (deliverSignal (doStart (doInitialize app0 [pOk]))).hooks)
    ∧ (deliverSignal (doStart (doInitialize app0 [pOk]))).state = StateShutdown
    ∧ (deliverSignal (doStart (doInitialize app0 [pOk]))).terms = [] := by
  decide

/-- C7 amended: a termination signal delivered while the caller is blocked in
Start produces the same reverse teardown sequence (identical plugin-method
trace) as an internally triggered `shutdown(nil)` would from that point, and
Start's caller is parked until `doneSignal` closes and released when it does;
however, unlike the internal path, the signal path does not invoke the hook
tagged "terminated" (the internal path's hook trace is the signal path's plus
that one invocation), does not invoke the termination action, and leaves the
state at `Shutdown`. -/
theorem claim_C7_amended_signal_during_start (ps : List Plugin)
    (hI : ∀ p ∈ ps, p.Initialize = none) (hS : ∀ p ∈ ps, p.Start = none) :
    (doStart (doInitialize app0 ps)).startParked = true
    ∧ (doStart (doInitialize app0 ps)).doneClosed = false
    ∧ (deliverSignal (doStart (doInitialize app0 ps))).doneClosed = true
    ∧ (deliverSignal (doStart (doInitialize app0 ps))).startParked = false
    ∧ (deliverSignal (doStart (doInitialize app0 ps))).calls =
        (shutdownStep (doStart (doInitialize app0 ps)) none).calls
    ∧ (shutdownStep (doStart (doInitialize app0 ps)) none).hooks =
        (deliverSignal (doStart (doInitialize app0 ps))).hooks ++ [("terminated", none)]
    ∧ (deliverSignal (doStart (doInitialize app0 ps))).terms = []
    ∧ (deliverSignal (doStart (doInitialize app0 ps))).state = StateShutdown := by
  rw [doStart_app0_clean_spec ps hI hS]
  have hsig :
      deliverSignal
        { app0 with plugins := ps, state := StateStarted, startParked := true
                    calls := evtsFrom Method.Initialize 0 ps.length
                      ++ evtsFrom Method.Start 0 ps.length } =
      teardown
        { app0 with plugins := ps, state := StateStarted, startParked := true
                    calls := evtsFrom Method.Initialize 0 ps.length
                      ++ evtsFrom Method.Start 0 ps.length } := by
    simp [deliverSignal, app0]
  rw [hsig, teardown_spec, shutdownStep_alive _ _ rfl]
  refine ⟨?_, ?_, ?_, ?_, ?_, ?_, ?_, ?_⟩ <;> simp [app0, List.append_assoc]

/-- Witness for C7's amended statement at the one-plugin registry `[pOk]`. -/
theorem claim_C7_amended_signal_during_start_witness :
    (doStart (doInitialize app0 [pOk])).startParked = true
    ∧ (deliverSignal (doStart (doInitialize app0 [pOk]))).doneClosed = true :=
  ⟨(claim_C7_amended_signal_during_start [pOk] (by decide) (by decide)).1,
   (claim_C7_amended_signal_during_start [pOk] (by decide) (by decide)).2.2.1⟩

/-- C9: every `PluginFuncs` method whose function field is nil returns a nil
error, so any subset of the four capabilities may be left as a no-op. -/
theorem claim_C9_pluginfuncs_nil_noop (p : PluginFuncs) (a : App) :
    (p.InitializeFunc = none → p.Initialize a = none)
    ∧ (p.RunFunc = none → p.Run a = none)
    ∧ (p.StartFunc = none → p.Start a = none)
    ∧ (p.ShutdownFunc = none → p.Shutdown a = none) := by
  refine ⟨?_, ?_, ?_, ?_⟩ <;> intro h <;>
    simp [PluginFuncs.Initialize, PluginFuncs.Run, PluginFuncs.Start,
      PluginFuncs.Shutdown, h]

/-- Witness for C9 at the all-nil `PluginFuncs` and the fresh application. -/
theorem claim_C9_pluginfuncs_nil_noop_witness :
    PluginFuncs.Initialize {} app0 = none ∧ PluginFuncs.Shutdown {} app0 = none :=
  ⟨(claim_C9_pluginfuncs_nil_noop {} app0).1 rfl,
   (claim_C9_pluginfuncs_nil_noop {} app0).2.2.2 rfl⟩

end Lifecycle
namespace Lifecycle

theorem stepOK_rfl (a : App) : StepOK a a :=
  ⟨le_refl _, fun h => h⟩

theorem stepOK_trans {a b c : App} (h1 : StepOK a b) (h2 : StepOK b c) : StepOK a c :=
  ⟨le_trans h1.1 h2.1, fun h => h2.2 (h1.2 h)⟩

theorem inv_app0 : Inv app0 := by
  simp [Inv, app0, StateInitial, StateStarted, StateTerminated]

theorem pres_teardown (a : App) (h : Inv a) (hg : a.goroutineAlive = true) :
    Inv (teardown a) ∧ StepOK a (teardown a) := by
  obtain ⟨h1, h2, h3, h4⟩ := h
  obtain ⟨hc0, hs3⟩ := h1 hg
  rw [teardown_spec]
  refine ⟨⟨by simp, by simp [hc0], by simp [hc0],
    by simp [StateShutdown, StateTerminated]⟩, ?_, by simp⟩
  simpa using le_trans hs3 (by decide : StateStarted ≤ StateShutdown)

theorem pres_epilogue (a : App) (err : Option Err) (h : Inv a)
    (hg : a.goroutineAlive = false) :
    Inv (epilogue a err) ∧ StepOK a (epilogue a err) := by
  obtain ⟨h1, h2, h3, h4⟩ := h
  rw [epilogue_spec]
  refine ⟨⟨by simp [hg], by simpa using h2, by simpa using h3, by simp⟩, ?_, by simp⟩
  simpa using h4

theorem pres_shutdownStep (a : App) (err : Option Err) (h : Inv a) :
    Inv (shutdownStep a err) ∧ StepOK a (shutdownStep a err) := by
  by_cases hg : a.goroutineAlive = true
  · have ht := pres_teardown a h hg
    have hg2 : (teardown a).goroutineAlive = false := by simp [teardown_spec]
    have he := pres_epilogue (teardown a) err ht.1 hg2
    rw [shutdownStep, if_pos hg]
    exact ⟨he.1, stepOK_trans ht.2 he.2⟩
  · have hg' : a.goroutineAlive = false := by simpa using hg
    by_cases hb : a.signalBuf = 0
    · have hinv : Inv { a with signalBuf := 1 } := by
        obtain ⟨h1, h2, h3, h4⟩ := h
        exact ⟨by simp [hg'], by simpa using h2, by simpa using h3, by simpa using h4⟩
      have he := pres_epilogue { a with signalBuf := 1 } err hinv (by simpa using hg')
      rw [shutdownStep, if_neg hg, if_pos hb]
      refine ⟨he.1, stepOK_trans ?_ he.2⟩
      exact ⟨le_refl _, fun hd => hd⟩
    · rw [shutdownStep, if_neg hg, if_neg hb]
      obtain ⟨h1, h2, h3, h4⟩ := h
      refine ⟨⟨by simp [hg'], by simpa using h2, by simpa using h3, by simpa using h4⟩,
        le_refl _, fun hd => hd⟩

theorem pres_forwardLoop (sel : Plugin → Option Err) (mth : Method) (label : String)
    (fin : App → App) (hfin : ∀ a, Inv a → Inv (fin a) ∧ StepOK a (fin a)) :
    ∀ (ps : List Plugin) (i : Nat) (a : App), Inv a →
      Inv (forwardLoop sel mth label fin i ps a)
        ∧ StepOK a (forwardLoop sel mth label fin i ps a) := by
  intro ps
  induction ps with
  | nil => intro i a h; simpa [forwardLoop] using hfin a h
  | cons p rest ih =>
    intro i a h
    have hinv1 : Inv { a with calls := a.calls ++ [⟨i, mth⟩] } := by
      obtain ⟨h1, h2, h3, h4⟩ := h
      exact ⟨by simpa using h1, by simpa using h2, by simpa using h3, by simpa using h4⟩
    cases hp : sel p with
    | some e =>
      simp only [forwardLoop, hp]
      have hinv2 : Inv { a with calls := a.calls ++ [⟨i, mth⟩]
                                hooks := a.hooks ++ [(label, some e)] } := by
        obtain ⟨h1, h2, h3, h4⟩ := h
        exact ⟨by simpa using h1, by simpa using h2, by simpa using h3, by simpa using h4⟩
      have hs := pres_shutdownStep _ (some e) hinv2
      refine ⟨hs.1, stepOK_trans ?_ hs.2⟩
      exact ⟨le_refl _, fun hd => hd⟩
    | none =>
      simp only [forwardLoop, hp]
      have hr := ih (i + 1) _ hinv1
      refine ⟨hr.1, stepOK_trans ?_ hr.2⟩
      exact ⟨le_refl _, fun hd => hd⟩

end Lifecycle
namespace Lifecycle

theorem pres_doInitialize (a : App) (ps : List Plugin) (h : Inv a) :
    Inv (doInitialize a ps) ∧ StepOK a (doInitialize a ps) := by
  rw [doInitialize]
  by_cases hhb : (a.halted || a.blocked) = true
  · rw [if_pos hhb]; exact ⟨h, stepOK_rfl a⟩
  · rw [if_neg hhb]
    by_cases hs : StateInitial < a.state
    · rw [if_pos hs]
      have h1 := pres_shutdownStep a (some errInitializeAfterStartup) h
      by_cases h2 : ((shutdownStep a (some errInitializeAfterStartup)).halted
          || (shutdownStep a (some errInitializeAfterStartup)).blocked) = true
      · rw [if_pos h2]; exact h1
      · rw [if_neg h2]
        have hinv2 : Inv { shutdownStep a (some errInitializeAfterStartup) with
            plugins := (shutdownStep a (some errInitializeAfterStartup)).plugins ++ ps } := by
          obtain ⟨x1, x2, x3, x4⟩ := h1.1
          exact ⟨by simpa using x1, by simpa using x2, by simpa using x3, by simpa using x4⟩
        have h3 := pres_forwardLoop (fun p => p.Initialize) Method.Initialize
          "initialization" id (fun b hb => ⟨hb, stepOK_rfl b⟩) ps
          (shutdownStep a (some errInitializeAfterStartup)).plugins.length _ hinv2
        refine ⟨h3.1, stepOK_trans h1.2 (stepOK_trans ⟨le_refl _, fun hd => hd⟩ h3.2)⟩
    · rw [if_neg hs]
      by_cases h2 : (a.halted || a.blocked) = true
      · rw [if_pos h2]; exact ⟨h, stepOK_rfl a⟩
      · rw [if_neg h2]
        have hinv2 : Inv { a with plugins := a.plugins ++ ps } := by
          obtain ⟨x1, x2, x3, x4⟩ := h
          exact ⟨by simpa using x1, by simpa using x2, by simpa using x3, by simpa using x4⟩
        have h3 := pres_forwardLoop (fun p => p.Initialize) Method.Initialize
          "initialization" id (fun b hb => ⟨hb, stepOK_rfl b⟩) ps
          a.plugins.length _ hinv2
        exact ⟨h3.1, stepOK_trans ⟨le_refl _, fun hd => hd⟩ h3.2⟩

theorem pres_runFin (b : App) (hb : Inv b) :
    Inv (shutdownStep b none) ∧ StepOK b (shutdownStep b none) :=
  pres_shutdownStep b none hb

theorem pres_startFin (b : App) (hb : Inv b) :
    Inv (if b.doneClosed then b else { b with startParked := true })
      ∧ StepOK b (if b.doneClosed then b else { b with startParked := true }) := by
  by_cases hd : b.doneClosed = true
  · simp only [hd, if_pos]; exact ⟨hb, stepOK_rfl b⟩
  · have hd' : b.doneClosed = false := by simpa using hd
    rw [if_neg (by simp [hd'])]
    obtain ⟨x1, x2, x3, x4⟩ := hb
    exact ⟨⟨by simpa using x1, by simpa using x2, by simpa using x3, by simpa using x4⟩,
      le_refl _, by simp [hd']⟩

theorem pres_doRun (a : App) (h : Inv a) : Inv (doRun a) ∧ StepOK a (doRun a) := by
  rw [doRun]
  by_cases hhb : (a.halted || a.blocked) = true
  · rw [if_pos hhb]; exact ⟨h, stepOK_rfl a⟩
  · rw [if_neg hhb]
    by_cases hcas : a.state = StateInitial
    · simp only [hcas, if_pos, if_true]
      have hinv1 : Inv { a with state := StateRunning } := by
        obtain ⟨x1, x2, x3, x4⟩ := h
        refine ⟨?_, by simpa using x2, by simpa using x3, by simp [StateRunning, StateTerminated]⟩
        intro hg
        exact ⟨(x1 (by simpa using hg)).1, by simp [StateRunning, StateStarted]⟩
      have hstep1 : StepOK a { a with state := StateRunning } := by
        refine ⟨?_, by simp⟩
        simp [hcas, StateInitial, StateRunning]
      by_cases h2 : (({ a with state := StateRunning } : App).halted
          || ({ a with state := StateRunning } : App).blocked) = true
      · rw [if_pos h2]; exact ⟨hinv1, hstep1⟩
      · rw [if_neg h2]
        have h3 := pres_forwardLoop (fun p => p.Run) Method.Run "running"
          (fun b => shutdownStep b none) pres_runFin
          ({ a with state := StateRunning } : App).plugins 0 _ hinv1
        exact ⟨h3.1, stepOK_trans hstep1 h3.2⟩
    · have hcas' : ¬ (a.state = StateInitial) := hcas
      simp only [hcas', if_neg, if_false]
      have h1 := pres_shutdownStep a (some errRunOrStart) h
      by_cases h2 : ((shutdownStep a (some errRunOrStart)).halted
          || (shutdownStep a (some errRunOrStart)).blocked) = true
      · rw [if_pos h2]; exact h1
      · rw [if_neg h2]
        have h3 := pres_forwardLoop (fun p => p.Run) Method.Run "running"
          (fun b => shutdownStep b none) pres_runFin
          (shutdownStep a (some errRunOrStart)).plugins 0 _ h1.1
        exact ⟨h3.1, stepOK_trans h1.2 h3.2⟩

theorem pres_doStart (a : App) (h : Inv a) : Inv (doStart a) ∧ StepOK a (doStart a) := by
  rw [doStart]
  by_cases hhb : (a.halted || a.blocked) = true
  · rw [if_pos hhb]; exact ⟨h, stepOK_rfl a⟩
  · rw [if_neg hhb]
    by_cases hcas : a.state = StateInitial
    · simp only [hcas, if_pos, if_true]
      have hinv1 : Inv { a with state := StateStarted } := by
        obtain ⟨x1, x2, x3, x4⟩ := h
        refine ⟨?_, by simpa using x2, by simpa using x3, by simp [StateStarted, StateTerminated]⟩
        intro hg
        exact ⟨(x1 (by simpa using hg)).1, by simp⟩
      have hstep1 : StepOK a { a with state := StateStarted } := by
        refine ⟨?_, by simp⟩
        simp [hcas, StateInitial, StateStarted]
      by_cases h2 : (({ a with state := StateStarted } : App).halted
          || ({ a with state := StateStarted } : App).blocked) = true
      · rw [if_pos h2]; exact ⟨hinv1, hstep1⟩
      · rw [if_neg h2]
        have h3 := pres_forwardLoop (fun p => p.Start) Method.Start "startup"
          (fun b => if b.doneClosed then b else { b with startParked := true }) pres_startFin
          ({ a with state := StateStarted } : App).plugins 0 _ hinv1
        exact ⟨h3.1, stepOK_trans hstep1 h3.2⟩
    · have hcas' : ¬ (a.state = StateInitial) := hcas
      simp only [hcas', if_neg, if_false]
      have h1 := pres_shutdownStep a (some errRunOrStart) h
      by_cases h2 : ((shutdownStep a (some errRunOrStart)).halted
          || (shutdownStep a (some errRunOrStart)).blocked) = true
      · rw [if_pos h2]; exact h1
      · rw [if_neg h2]
        have h3 := pres_forwardLoop (fun p => p.Start) Method.Start "startup"
          (fun b => if b.doneClosed then b else { b with startParked := true }) pres_startFin
          (shutdownStep a (some errRunOrStart)).plugins 0 _ h1.1
        exact ⟨h3.1, stepOK_trans h1.2 h3.2⟩

theorem pres_deliverSignal (a : App) (h : Inv a) :
    Inv (deliverSignal a) ∧ StepOK a (deliverSignal a) := by
  rw [deliverSignal]
  by_cases hh : a.halted = true
  · rw [if_pos hh]; exact ⟨h, stepOK_rfl a⟩
  · rw [if_neg hh]
    by_cases hg : a.goroutineAlive = true
    · rw [if_pos hg]; exact pres_teardown a h hg
    · rw [if_neg hg]; exact ⟨h, stepOK_rfl a⟩

theorem pres_applyOp (a : App) (op : Op) (h : Inv a) :
    Inv (applyOp a op) ∧ StepOK a (applyOp a op) := by
  cases op with
  | initializeOp ps => exact pres_doInitialize a ps h
  | runOp => exact pres_doRun a h
  | startOp => exact pres_doStart a h
  | signalOp => exact pres_deliverSignal a h
  | shutdownOp err =>
    rw [applyOp]
    by_cases hhb : (a.halted || a.blocked) = true
    · rw [if_pos hhb]; exact ⟨h, stepOK_rfl a⟩
    · rw [if_neg hhb]; exact pres_shutdownStep a err h

theorem inv_applyOps :
    ∀ (ops : List Op) (a : App), Inv a → Inv (applyOps a ops) ∧ StepOK a (applyOps a ops) := by
  intro ops
  induction ops with
  | nil => intro a h; exact ⟨h, stepOK_rfl a⟩
  | cons op rest ih =>
    intro a h
    have h1 := pres_applyOp a op h
    have h2 := ih (applyOp a op) h1.1
    rw [show applyOps a (op :: rest) = applyOps (applyOp a op) rest from rfl]
    exact ⟨h2.1, stepOK_trans h1.2 h2.2⟩

end Lifecycle
namespace Lifecycle

/-- C8: for any sequence of public operations on a fresh application — any mix
of Initialize/Run/Start calls, OS termination signals and explicit internal
shutdown triggers, in any interleaving order — the reverse teardown loop
executes at most once (`teardownCount ≤ 1`), `doneSignal` is closed exactly
when the teardown has run, and once closed it stays closed under any further
operations: no caller observes it closed-then-reopened. -/
theorem claim_C8_teardown_once (ops : List Op) :
    (applyOps app0 ops).teardownCount ≤ 1
    ∧ ((applyOps app0 ops).doneClosed = true ↔ (applyOps app0 ops).teardownCount = 1)
    ∧ (∀ more : List Op, (applyOps app0 ops).doneClosed = true →
        (applyOps (applyOps app0 ops) more).doneClosed = true) := by
  have h := inv_applyOps ops app0 inv_app0
  obtain ⟨⟨_, hiff, hle, _⟩, _⟩ := h
  refine ⟨hle, hiff, fun more hd => ?_⟩
  have h2 := inv_applyOps more (applyOps app0 ops) (inv_applyOps ops app0 inv_app0).1
  exact h2.2.2 hd

/-- Witness for C8: a completed Run (which tears down once and closes `done`)
followed by a late OS signal, which neither reruns the teardown nor reopens
`done`. -/
theorem claim_C8_teardown_once_witness :
    (applyOps app0 [Op.runOp]).teardownCount ≤ 1
    ∧ ((applyOps app0 [Op.runOp]).doneClosed = true
        ↔ (applyOps app0 [Op.runOp]).teardownCount = 1)
    ∧ (applyOps (applyOps app0 [Op.runOp]) [Op.signalOp]).doneClosed = true :=
  ⟨(claim_C8_teardown_once [Op.runOp]).1,
   (claim_C8_teardown_once [Op.runOp]).2.1,
   (claim_C8_teardown_once [Op.runOp]).2.2 [Op.signalOp] (by decide)⟩

/-- C10: over every sequence of public operations and signal deliveries from a
fresh application, the state variable is monotonically non-decreasing in the
ordering Invalid < Initial < Running < Started < Shutdown < Terminated: any
continuation leaves the state at least where it was, once the state has left
`Initial` it is never re-entered, and once `Terminated` it never changes. -/
theorem claim_C10_state_monotone (ops more : List Op) :
    (applyOps app0 ops).state ≤ (applyOps (applyOps app0 ops) more).state
    ∧ (StateInitial < (applyOps app0 ops).state →
        StateInitial < (applyOps (applyOps app0 ops) more).state)
    ∧ ((applyOps app0 ops).state = StateTerminated →
        (applyOps (applyOps app0 ops) more).state = StateTerminated) := by
  have h1 := inv_applyOps ops app0 inv_app0
  have h2 := inv_applyOps more (applyOps app0 ops) h1.1
  have hle := h2.2.1
  refine ⟨hle, fun hlt => lt_of_lt_of_le hlt hle, fun hT => ?_⟩
  have hub := h2.1.2.2.2
  rw [hT] at hle
  exact le_antisymm hub hle

/-- Witness for C10: a completed Run (state `Terminated`) followed by an
attempted Start, which cannot move the state. -/
theorem claim_C10_state_monotone_witness :
    (applyOps app0 [Op.runOp]).state ≤ (applyOps (applyOps app0 [Op.runOp]) [Op.startOp]).state
    ∧ (applyOps (applyOps app0 [Op.runOp]) [Op.startOp]).state = StateTerminated :=
  ⟨(claim_C10_state_monotone [Op.runOp] [Op.startOp]).1,
   (claim_C10_state_monotone [Op.runOp] [Op.startOp]).2.2 (by decide)⟩

end Lifecycle
